import Mathlib

/-!
Verification of `src/util/mail/getVerificationCode.js`.

The JavaScript module is shallowly embedded: JS numbers that occur as
timestamps are modelled as `Int` (all timestamps handled by the program are
integral epoch values), JS strings as `String`, `null`/`NaN` results as
`Option`, and thrown exceptions as `Except String`.  `Date.parse` /
`new Date(s).getTime()` is modelled by `ecmaDateParse`, which implements the
ECMAScript Date Time String Format (`YYYY-MM-DD[THH:MM[:SS]][Z|±HH:MM|±HHMM]`);
forms outside that grammar are implementation-defined in ECMAScript and are
modelled as unparsable (`none`).
-/

/-- A JavaScript value that can appear as a `time` input of
`normalizeTimestamp`: a number or a string. -/
inductive JsVal where
  | num (v : Int)
  | str (s : String)
deriving DecidableEq

/-- Digit test of the regex class `\d` (ASCII `0`-`9` only). -/
def isDigitChar (c : Char) : Bool :=
  48 ≤ c.toNat ∧ c.toNat ≤ 57

/-- Whitespace test of the regex class `\s` (the common members: space, tab,
LF, CR, VT, FF, NBSP, BOM; the rarer Unicode space separators are omitted
from the model, no input of interest contains them). -/
def isSpaceChar (c : Char) : Bool :=
  c.toNat = 32 ∨ c.toNat = 9 ∨ c.toNat = 10 ∨ c.toNat = 13 ∨
    c.toNat = 11 ∨ c.toNat = 12 ∨ c.toNat = 160 ∨ c.toNat = 65279

/-- Numeric value of a decimal digit character. -/
def getDigit (c : Char) : Option Nat :=
  if isDigitChar c then some (c.toNat - 48) else none

/-- Value of a nonempty all-digit character run. -/
def parseDigits (cs : List Char) : Option Nat :=
  match cs with
  | [] => none
  | ds => if ds.all isDigitChar then
      some (ds.foldl (fun acc c => 10 * acc + (c.toNat - 48)) 0) else none

/-- `Number(s)` for a trimmed string, restricted to the integer numeric
literals that timestamps use: `""` converts to `0`, an optionally signed
digit run to its value, anything else (in particular date strings) to `NaN`
(`none`).  Fractional / hex / exponent literals are outside the modelled
input domain. -/
def parseIntStr (cs : List Char) : Option Int :=
  match cs with
  | [] => some 0
  | '+' :: ds => (parseDigits ds).map (fun n => (n : Int))
  | '-' :: ds => (parseDigits ds).map (fun n => -(n : Int))
  | ds => (parseDigits ds).map (fun n => (n : Int))

/-- `trim()` of a JS string: leading and trailing whitespace removed. -/
def jsTrim (cs : List Char) : List Char :=
  ((cs.dropWhile isSpaceChar).reverse.dropWhile isSpaceChar).reverse

/-- `Number(time)` (line 23 of the source): numbers convert to themselves,
strings through the numeric-literal grammar (whose own whitespace trimming
coincides with `jsTrim`). -/
def jsToNumber : JsVal → Option Int
  | .num v => some v
  | .str s => parseIntStr (jsTrim s.data)

/-- `String(time)` for the (truthy) values reaching the string branch. -/
def jsStringify : JsVal → String
  | .num v => toString v
  | .str s => s

/-- One position of the unanchored regex alternative `(\+|-)\d{2}:?\d{2}`
(line 33): sign, two digits, optional colon, two digits. -/
def offsetTokenAt (l : List Char) : Bool :=
  match l with
  | s :: d1 :: d2 :: rest =>
    (s == '+' || s == '-') && isDigitChar d1 && isDigitChar d2 &&
      (match rest with
       | ':' :: e1 :: e2 :: _ => isDigitChar e1 && isDigitChar e2
       | e1 :: e2 :: _ => isDigitChar e1 && isDigitChar e2
       | _ => false)
  | _ => false

/-- Scan of all positions for `offsetTokenAt`. -/
def hasOffsetToken (l : List Char) : Bool :=
  match l with
  | [] => false
  | _ :: cs => offsetTokenAt l || hasOffsetToken cs

/-- The test `/(\+|-)\d{2}:?\d{2}|Z$/i.test(str)` (line 33): an embedded
offset token anywhere, or a trailing `Z`/`z`. -/
def hasExplicitOffset (l : List Char) : Bool :=
  hasOffsetToken l ||
    (match l.getLast? with
     | some c => c == 'Z' || c == 'z'
     | none => false)

/-- The capture groups of `/^UTC(?:(\+|-)(\d{2})(?::?(\d{2}))?)?$/`
(line 38) after the numeric conversions of lines 41-43. -/
structure TzOffset where
  sign : Int
  hours : Nat
  minutes : Nat
deriving DecidableEq

/-- Value of two consecutive digit characters (`\d{2}`). -/
def twoDigits (c1 c2 : Char) : Option Nat :=
  match getDigit c1, getDigit c2 with
  | some a, some b => some (10 * a + b)
  | _, _ => none

/-- The optional `(?::?(\d{2}))?` minute group followed by end of string. -/
def tzTail (sign : Int) (hours : Nat) : List Char → Option TzOffset
  | [] => some ⟨sign, hours, 0⟩
  | ':' :: m1 :: m2 :: [] => (twoDigits m1 m2).map (fun mins => ⟨sign, hours, mins⟩)
  | m1 :: m2 :: [] => (twoDigits m1 m2).map (fun mins => ⟨sign, hours, mins⟩)
  | _ => none

/-- The anchored timezone pattern `^UTC(?:(\+|-)(\d{2})(?::?(\d{2}))?)?$`
of line 38 together with the sign/hour/minute extraction of lines 41-43.
`none` models a failed `exec`. -/
def parseTzOffset (tz : String) : Option TzOffset :=
  match tz.data with
  | ['U', 'T', 'C'] => some ⟨1, 0, 0⟩
  | 'U' :: 'T' :: 'C' :: s :: h1 :: h2 :: rest =>
    if s = '+' ∨ s = '-' then
      match twoDigits h1 h2 with
      | some hours => tzTail (if s = '-' then -1 else 1) hours rest
      | none => none
    else none
  | _ => none

/-- Leap-year rule of the Gregorian calendar. -/
def isLeapYear (y : Int) : Bool :=
  (y % 4 == 0 && y % 100 != 0) || y % 400 == 0

/-- Length of a month. -/
def daysInMonth (y : Int) (m : Nat) : Nat :=
  if m = 2 then (if isLeapYear y then 29 else 28)
  else if m = 4 ∨ m = 6 ∨ m = 9 ∨ m = 11 then 30 else 31

/-- Days from 1970-01-01 to the civil date `y-m-d` (Hinnant's
days-from-civil algorithm). -/
def daysFromCivil (y : Int) (m d : Nat) : Int :=
  let y' : Int := if m ≤ 2 then y - 1 else y
  let era : Int := (if 0 ≤ y' then y' else y' - 399) / 400
  let yoe : Int := y' - era * 400
  let mp : Nat := (m + 9) % 12
  let doy : Int := (153 * (mp : Int) + 2) / 5 + (d : Int) - 1
  let doe : Int := yoe * 365 + yoe / 4 - yoe / 100 + doy
  era * 146097 + doe - 719468

/-- Offset part of an ISO date-time: empty (interpreted against the host
zone by ECMAScript, modelled as UTC), `Z`, `±HH:MM` or `±HHMM`.  Returns the
signed offset in minutes. -/
def parseOffsetPart (cs : List Char) : Option Int :=
  match cs with
  | [] => some 0
  | ['Z'] => some 0
  | [s, o1, o2, ':', o3, o4] =>
    if s = '+' ∨ s = '-' then
      match twoDigits o1 o2, twoDigits o3 o4 with
      | some oh, some om =>
        if oh ≤ 23 ∧ om ≤ 59 then
          some ((if s = '-' then -1 else 1) * ((oh : Int) * 60 + om)) else none
      | _, _ => none
    else none
  | [s, o1, o2, o3, o4] =>
    if s = '+' ∨ s = '-' then
      match twoDigits o1 o2, twoDigits o3 o4 with
      | some oh, some om =>
        if oh ≤ 23 ∧ om ≤ 59 then
          some ((if s = '-' then -1 else 1) * ((oh : Int) * 60 + om)) else none
      | _, _ => none
    else none
  | _ => none

/-- `HH:MM[:SS]` time part; returns hours, minutes, seconds and the
remaining characters (the offset part). -/
def parseTimePart (cs : List Char) : Option (Nat × Nat × Nat × List Char) :=
  match cs with
  | h1 :: h2 :: ':' :: m1 :: m2 :: rest =>
    match twoDigits h1 h2, twoDigits m1 m2 with
    | some hh, some mm =>
      if hh ≤ 23 ∧ mm ≤ 59 then
        match rest with
        | ':' :: s1 :: s2 :: rest' =>
          match twoDigits s1 s2 with
          | some ss => if ss ≤ 59 then some (hh, mm, ss, rest') else none
          | none => none
        | _ => some (hh, mm, 0, rest)
      else none
    | _, _ => none
  | _ => none

/-- `new Date(s).getTime()` on the ECMAScript Date Time String Format
`YYYY-MM-DD[THH:MM[:SS]][Z|±HH:MM|±HHMM]`; `none` models an Invalid Date
(`NaN`). -/
def ecmaDateParse (s : String) : Option Int :=
  match s.data with
  | y1 :: y2 :: y3 :: y4 :: '-' :: mo1 :: mo2 :: '-' :: d1 :: d2 :: rest =>
    match getDigit y1, getDigit y2, getDigit y3, getDigit y4,
        twoDigits mo1 mo2, twoDigits d1 d2 with
    | some a, some b, some c, some d, some mo, some day =>
      let y : Int := (1000 * a + 100 * b + 10 * c + d : Nat)
      if 1 ≤ mo ∧ mo ≤ 12 ∧ 1 ≤ day ∧ day ≤ daysInMonth y mo then
        match rest with
        | [] => some (daysFromCivil y mo day * 86400000)
        | 'T' :: timeCs =>
          match parseTimePart timeCs with
          | some (hh, mm, ss, offCs) =>
            match parseOffsetPart offCs with
            | some offMin =>
              some (daysFromCivil y mo day * 86400000 +
                ((hh : Int) * 3600 + (mm : Int) * 60 + (ss : Int)) * 1000 -
                offMin * 60000)
            | none => none
          | none => none
        | _ => none
      else none
    | _, _, _, _, _, _ => none
  | _ => none

/-- `str.replace(" ", "T")` (line 47): the first space becomes `T`. -/
def replaceFirstSpace : List Char → List Char
  | [] => []
  | ' ' :: rest => 'T' :: rest
  | c :: rest => c :: replaceFirstSpace rest

/-- `String(n).padStart(2, "0")` for the hour/minute fields (line 48). -/
def pad2 (n : Nat) : String :=
  if n < 10 then "0" ++ toString n else toString n

/-- The `±HH:MM` suffix built on line 48. -/
def offsetSuffix (m : TzOffset) : String :=
  (if m.sign = 1 then "+" else "-") ++ pad2 m.hours ++ ":" ++ pad2 m.minutes

/-- `normalizeTimestamp(time, tz = "UTC")` (lines 22-50).  `none` is the
`NaN` sentinel.  Branches, in source order: finite numeric conversion with
the `1e12` second/millisecond heuristic; strings carrying their own offset
parsed directly; otherwise the configured timezone is parsed and, when it
matches, the naive string is reformatted (first space to `T`, offset suffix
appended) and parsed; an unrecognized timezone falls back to a direct
parse. -/
def normalizeTimestamp (time : JsVal) (tz : String) : Option Int :=
  match jsToNumber time with
  | some raw => some (if raw < 1000000000000 then raw * 1000 else raw)
  | none =>
    let str := jsTrim (jsStringify time).data
    if hasExplicitOffset str then ecmaDateParse (String.mk str)
    else
      match parseTzOffset tz with
      | none => ecmaDateParse (String.mk str)
      | some m =>
        ecmaDateParse (String.mk (replaceFirstSpace str) ++ offsetSuffix m)

/-- `isWithinMinutes(time, minutes)` (lines 52-56).  The source reads the
configured timezone and `Date.now()` from ambient state; both are explicit
parameters here (`tz`, `now` in epoch milliseconds). -/
def isWithinMinutes (now : Int) (tz : String) (time : JsVal) (minutes : Int) : Bool :=
  match normalizeTimestamp time tz with
  | none => false
  | some ts => decide (now - ts ≤ minutes * 60 * 1000)

/-- Case folding used by the `/i` flag, restricted to the characters that can
meet the pattern: ASCII letters and the accented letters `ó`/`í` occurring in
the Spanish phrasing (CJK characters are unaffected by `/i`). -/
def foldChar (c : Char) : Char :=
  if c = 'Ó' then 'ó' else if c = 'Í' then 'í' else c.toLower

/-- Case-insensitive literal match: on success returns the characters
following the literal. -/
def matchLit : List Char → List Char → Option (List Char)
  | [], cs => some cs
  | _ :: _, [] => none
  | p :: ps, c :: cs => if foldChar c = foldChar p then matchLit ps cs else none

/-- The Chinese phrasing alternative `代码为` of the extraction regex. -/
def zhPat : List Char := "代码为".data

/-- The English phrasing alternative `code is`. -/
def enPat : List Char := "code is".data

/-- The Spanish phrasing alternative `código es`. -/
def esPat : List Char := "código es".data

/-- The ordered alternation of phrasings recognized by the extraction
regex of line 65. -/
def phrasePats : List (List Char) := [zhPat, enPat, esPat]

/-- The continuation `\s*(\d{6})` after a matched phrasing: greedy
whitespace, then six digits (whitespace and digits are disjoint, so the
greedy match never needs to backtrack).  Returns the captured group. -/
def afterPhrase (t : List Char) : Option (List Char) :=
  let t1 := t.dropWhile isSpaceChar
  let d6 := t1.take 6
  if d6.length = 6 ∧ d6.all isDigitChar then some d6 else none

/-- One alternative of the pattern tried at one position. -/
def tryAlt (pat : List Char) (cs : List Char) : Option (List Char) :=
  match matchLit pat cs with
  | none => none
  | some t => afterPhrase t

/-- The whole pattern `(?:代码为|code is|código es)\s*(\d{6})` tried at one
position, alternatives in source order. -/
def tryAt (cs : List Char) : Option (List Char) :=
  match tryAlt zhPat cs with
  | some r => some r
  | none =>
    match tryAlt enPat cs with
    | some r => some r
    | none => tryAlt esPat cs

/-- Leftmost-match scan of `String.prototype.match`. -/
def scanFor : List Char → Option (List Char)
  | [] => none
  | c :: cs =>
    match tryAt (c :: cs) with
    | some r => some r
    | none => scanFor cs

/-- `extractVerificationCode(subject)` (lines 63-67): the first captured
6-digit group of `/(?:代码为|code is|código es)\s*(\d{6})/i`, or `null`. -/
def extractVerificationCode (subject : String) : Option String :=
  (scanFor subject.data).map (fun cs => String.mk cs)

/-- A mail item as consumed by the loop: `subject`, `createTime`, sender
display `name` and `sendEmail` address. -/
structure Message where
  subject : String
  createTime : JsVal
  name : String
  sendEmail : String
deriving DecidableEq

/-- The result object built by `findLatestVerificationCode` (lines 121-126);
`sender` models its `from` field (`from` is reserved in Lean). -/
structure VerificationInfo where
  code : String
  time : JsVal
  subject : String
  sender : String
deriving DecidableEq

/-- `findLatestVerificationCode(emailList)` (lines 112-131): first message
whose subject yields a code; `email.name || email.sendEmail` falls back to
the address when the display name is empty. -/
def findLatestVerificationCode : List Message → Option VerificationInfo
  | [] => none
  | email :: rest =>
    match extractVerificationCode email.subject with
    | some code =>
      some ⟨code, email.createTime, email.subject,
        if email.name = "" then email.sendEmail else email.name⟩
    | none => findLatestVerificationCode rest

/-- Sort key of the comparator on line 171: `normalizeTimestamp(createTime)`
with the timezone argument omitted, hence the default `"UTC"` — not the
configured timezone. -/
def sortKey (m : Message) : Option Int :=
  normalizeTimestamp m.createTime "UTC"

/-- Strict "ranks above" order of the descending comparator
`normalizeTimestamp(b) - normalizeTimestamp(a)`; a `NaN` key makes the
comparator return `NaN`, treated as a tie. -/
def keyGt (a b : Option Int) : Bool :=
  match a, b with
  | some x, some y => decide (y < x)
  | _, _ => false

/-- Stable insertion preserving input order among ties. -/
def insertDesc (x : Message) : List Message → List Message
  | [] => [x]
  | y :: ys => if keyGt (sortKey y) (sortKey x) then y :: insertDesc x ys else x :: y :: ys

/-- The stable descending sort `[...emailData.list].sort(...)` of line 171. -/
def rankMessages (l : List Message) : List Message :=
  l.foldr insertDesc []

/-- One poll attempt's inspection of a fetched list (lines 168-203): empty
list retries; the head of the ranked list is checked for a parsable
(`latestTs`, computed with the default `"UTC"`) and recent timestamp; then
the ranked list is scanned for a code and the found message's own timestamp
is re-validated.  `some info` means the attempt succeeds. -/
def attemptFind (tz : String) (now : Int) (list : List Message) : Option VerificationInfo :=
  match list with
  | [] => none
  | x :: xs =>
    match rankMessages (x :: xs) with
    | [] => none
    | latestMail :: restSorted =>
      match normalizeTimestamp latestMail.createTime "UTC" with
      | none => none
      | some _ =>
        if ! isWithinMinutes now tz latestMail.createTime 3 then none
        else
          match findLatestVerificationCode (latestMail :: restSorted) with
          | none => none
          | some info =>
            if ! isWithinMinutes now tz info.time 3 then none
            else some info

/-- `payload.data` of a successful fetch: the message list (an absent list
is modelled as the empty list, merged with the `length === 0` check). -/
structure EmailData where
  list : List Message
deriving DecidableEq

/-- Shape of one HTTP exchange as seen by `fetchEmailList`: a non-2xx
status, a body that is not JSON, or a decoded payload `{code, message,
data}`. -/
inductive FetchResponse where
  | httpFail (status : Nat)
  | badJson (msg : String)
  | payload (code : Nat) (message : String) (data : EmailData)
deriving DecidableEq

/-- `fetchEmailList` error handling (lines 88-104): non-2xx status,
unparsable body and non-200 application codes all throw (`Except.error`);
otherwise the payload data is returned. -/
def fetchEmailList (r : FetchResponse) : Except String EmailData :=
  match r with
  | .httpFail status => .error ("获取邮件列表失败，HTTP 状态码 " ++ toString status)
  | .badJson m => .error ("邮件列表响应无法解析为 JSON: " ++ m)
  | .payload code msg d =>
    if code ≠ 200 then
      .error ("获取邮件列表失败: " ++ (if msg = "" then "未知错误" else msg))
    else .ok d

/-- Terminal state of one poll session. -/
inductive PollOutcome where
  | found (v : VerificationInfo)
  | exhausted
  | aborted (e : String)
deriving DecidableEq

/-- Observable trace of one poll session: terminal outcome, number of fetch
attempts performed, and the list of sleep durations (ms) awaited. -/
structure PollResult where
  outcome : PollOutcome
  fetchCount : Nat
  sleeps : List Nat
deriving DecidableEq

/-- `maxRetries` (line 159). -/
def maxRetries : Nat := 5

/-- `retryDelay` in milliseconds (line 160). -/
def retryDelay : Nat := 10000

/-- The retry loop of `getVerificationCode` (lines 162-208): attempt `i`
with `fuel` attempts remaining.  An uncaught fetch error aborts the session
at once; a successful attempt returns; otherwise the loop sleeps
`retryDelay` between consecutive attempts (`i < maxRetries - 1`, i.e. SOME
fuel remains) and falls through to exhaustion after the last one.  `resp i`
is the HTTP exchange of attempt `i`, `now i` the value of `Date.now()`
during attempt `i`. -/
def pollGo (resp : Nat → FetchResponse) (now : Nat → Int) (tz : String) :
    Nat → Nat → PollResult
  | _, 0 => ⟨.exhausted, 0, []⟩
  | i, fuel + 1 =>
    match fetchEmailList (resp i) with
    | .error e => ⟨.aborted e, 1, []⟩
    | .ok d =>
      match attemptFind tz (now i) d.list with
      | some info => ⟨.found info, 1, []⟩
      | none =>
        if fuel = 0 then ⟨.exhausted, 1, []⟩
        else
          let r := pollGo resp now tz (i + 1) fuel
          ⟨r.outcome, r.fetchCount + 1, retryDelay :: r.sleeps⟩

/-- One full poll session: attempts `0` to `maxRetries - 1`. -/
def pollSession (resp : Nat → FetchResponse) (now : Nat → Int) (tz : String) : PollResult :=
  pollGo resp now tz 0 maxRetries

/-- A message carrying a naive (offset-less) timestamp string, used to
exhibit the sort-key / recency-check discrepancy. -/
def mNaive : Message :=
  ⟨"subject", .str "2024-01-01 10:00:00", "n", "e"⟩


/-- A two-digit field value is at most 99. -/
theorem twoDigits_le99 (c1 c2 : Char) (n : Nat) (h : twoDigits c1 c2 = some n) :
    n ≤ 99 := by
  unfold twoDigits at h
  cases h1 : getDigit c1 with
  | none => rw [h1] at h; exact Option.noConfusion h
  | some a =>
    cases h2 : getDigit c2 with
    | none => rw [h1, h2] at h; exact Option.noConfusion h
    | some b =>
      rw [h1, h2] at h
      have ha : a ≤ 9 := by
        unfold getDigit at h1
        split at h1
        · rename_i hd
          rw [Option.some.injEq] at h1
          unfold isDigitChar at hd
          rw [decide_eq_true_eq] at hd
          omega
        · exact Option.noConfusion h1
      have hb : b ≤ 9 := by
        unfold getDigit at h2
        split at h2
        · rename_i hd
          rw [Option.some.injEq] at h2
          unfold isDigitChar at hd
          rw [decide_eq_true_eq] at hd
          omega
        · exact Option.noConfusion h2
      rw [Option.some.injEq] at h
      omega

/-- The minute group keeps the hour field and yields a two-digit minute. -/
theorem tzTail_bounds (sign : Int) (hours : Nat) (cs : List Char) (m : TzOffset)
    (h : tzTail sign hours cs = some m) : m.hours = hours ∧ m.minutes ≤ 99 := by
  unfold tzTail at h
  split at h
  · rw [Option.some.injEq] at h
    subst h
    exact ⟨rfl, Nat.zero_le 99⟩
  · rename_i m1 m2
    cases h2 : twoDigits m1 m2 with
    | none => rw [h2] at h; exact Option.noConfusion h
    | some n =>
      rw [h2, Option.map_some'] at h
      rw [Option.some.injEq] at h
      subst h
      exact ⟨rfl, twoDigits_le99 m1 m2 n h2⟩
  · rename_i m1 m2
    cases h2 : twoDigits m1 m2 with
    | none => rw [h2] at h; exact Option.noConfusion h
    | some n =>
      rw [h2, Option.map_some'] at h
      rw [Option.some.injEq] at h
      subst h
      exact ⟨rfl, twoDigits_le99 m1 m2 n h2⟩
  · exact Option.noConfusion h

/-- Claim C9 (corrected): every timezone string the parser accepts yields
hour and minute fields in `[0, 99]` — the pattern constrains each field to
two digits but performs no range check, so hours up to 99 (not 23) and
minutes up to 99 (not 59) are accepted. -/
theorem c9_tz_field_bounds (tz : String) (m : TzOffset)
    (h : parseTzOffset tz = some m) : m.hours ≤ 99 ∧ m.minutes ≤ 99 := by
  unfold parseTzOffset at h
  split at h
  · rw [Option.some.injEq] at h
    subst h
    exact ⟨by decide, by decide⟩
  · rename_i sc d1 d2 rest heq
    split at h
    · cases h3 : twoDigits d1 d2 with
      | none => rw [h3] at h; exact Option.noConfusion h
      | some hours =>
        rw [h3] at h
        obtain ⟨he, hm⟩ := tzTail_bounds _ hours rest m h
        exact ⟨he ▸ twoDigits_le99 d1 d2 hours h3, hm⟩
    · exact Option.noConfusion h
  · exact Option.noConfusion h

/-- Witness for C9's theorem at `"UTC-05:30"`. -/
theorem c9_tz_field_bounds_witness :
    (⟨-1, 5, 30⟩ : TzOffset).hours ≤ 99 ∧ (⟨-1, 5, 30⟩ : TzOffset).minutes ≤ 99 :=
  c9_tz_field_bounds "UTC-05:30" ⟨-1, 5, 30⟩ (by decide)

/-- Counterexample to claim C9 as stated: `"UTC+25:61"` matches the
timezone pattern although its hour field exceeds 23 and its minute field
exceeds 59. -/
theorem c9_tz_counterexample :
    parseTzOffset "UTC+25:61" = some ⟨1, 25, 61⟩ ∧ ¬ (25 ≤ 23 ∧ 61 ≤ 59) :=
  ⟨by decide, by decide⟩

/-- Claim C3: inputs converting to a non-NaN number are epoch values:
below `1e12` they are seconds and get multiplied by 1000, otherwise they are
already milliseconds — independently of the timezone argument. -/
theorem c3_numeric_normalization (t : JsVal) (v : Int) (tz : String)
    (h : jsToNumber t = some v) :
    normalizeTimestamp t tz = some (if v < 1000000000000 then v * 1000 else v) := by
  unfold normalizeTimestamp
  rw [h]

/-- Witness for C3 at a small second-scale value and a millisecond-scale
numeric string, under unrelated timezone arguments. -/
theorem c3_numeric_normalization_witness :
    normalizeTimestamp (.num 5) "UTC+99:00" = some 5000 ∧
    normalizeTimestamp (.str " 2000000000000 ") "Europe/Paris" = some 2000000000000 := by
  constructor
  · rw [c3_numeric_normalization (.num 5) 5 "UTC+99:00" rfl]
    decide
  · rw [c3_numeric_normalization (.str " 2000000000000 ") 2000000000000 "Europe/Paris" (by decide)]
    decide

/-- Claim C4: under timezone `"UTC+08:00"` the naive string
`"2024-01-01 10:00:00"` normalizes to the instant
`2024-01-01T10:00:00+08:00` = 1704074400000 ms, via first-space
replacement and offset-suffix appending. -/
theorem c4_naive_string_with_tz :
    normalizeTimestamp (.str "2024-01-01 10:00:00") "UTC+08:00" = some 1704074400000 ∧
    String.mk (replaceFirstSpace "2024-01-01 10:00:00".data) = "2024-01-01T10:00:00" ∧
    offsetSuffix ⟨1, 8, 0⟩ = "+08:00" ∧
    ecmaDateParse "2024-01-01T10:00:00+08:00" = some 1704074400000 :=
  ⟨by decide, by decide, by decide, by decide⟩

/-- Claim C5: the ranking key of the poll loop's comparator normalizes
`createTime` with the default `"UTC"` (the configured timezone is not
passed), so for a naive timestamp string under configured timezone
`"UTC+08:00"` the sort key (the UTC instant, 1704103200000) differs from
the instant the recency check `isWithinMinutes` uses (the +08:00 instant,
1704074400000). -/
theorem c5_sort_key_ignores_tz :
    sortKey mNaive = normalizeTimestamp mNaive.createTime "UTC" ∧
    sortKey mNaive = some 1704103200000 ∧
    normalizeTimestamp mNaive.createTime "UTC+08:00" = some 1704074400000 ∧
    sortKey mNaive ≠ normalizeTimestamp mNaive.createTime "UTC+08:00" ∧
    (∀ now : Int, isWithinMinutes now "UTC+08:00" mNaive.createTime 3 =
      decide (now - 1704074400000 ≤ 3 * 60 * 1000)) := by
  refine ⟨rfl, by decide, by decide, by decide, fun now => ?_⟩
  unfold isWithinMinutes
  rw [show normalizeTimestamp mNaive.createTime "UTC+08:00" = some 1704074400000 from by decide]

/-- Witness for C5's universally quantified recency conjunct at the exact
send instant. -/
theorem c5_sort_key_ignores_tz_witness :
    isWithinMinutes 1704074400000 "UTC+08:00" mNaive.createTime 3 = true :=
  (c5_sort_key_ignores_tz.2.2.2.2 1704074400000).trans (by decide)

/-- Claim C6: `isWithinMinutes` is false whenever normalization yields the
NaN sentinel (fail-closed), and otherwise holds exactly when
`now - ts ≤ minutes * 60000`; in particular a future timestamp (with a
nonnegative window) is recent. -/
theorem c6_recency_fail_closed (now : Int) (tz : String) (t : JsVal) (m : Int) :
    (normalizeTimestamp t tz = none → isWithinMinutes now tz t m = false) ∧
    (∀ v : Int, normalizeTimestamp t tz = some v →
      ((isWithinMinutes now tz t m = true) ↔ now - v ≤ m * 60 * 1000) ∧
      (now < v → 0 ≤ m → isWithinMinutes now tz t m = true)) := by
  refine ⟨fun h => ?_, fun v h => ⟨?_, fun h1 h2 => ?_⟩⟩
  · unfold isWithinMinutes
    rw [h]
  · unfold isWithinMinutes
    rw [h]
    simp
  · unfold isWithinMinutes
    rw [h]
    rw [decide_eq_true_eq]
    omega

/-- Witness for C6: an unparsable string is never recent; a future
timestamp is. -/
theorem c6_recency_fail_closed_witness :
    isWithinMinutes 0 "UTC" (.str "not a date") 3 = false ∧
    isWithinMinutes 500 "UTC" (.num 1) 3 = true := by
  constructor
  · exact (c6_recency_fail_closed 0 "UTC" (.str "not a date") 3).1 (by decide)
  · exact ((c6_recency_fail_closed 500 "UTC" (.num 1) 3).2 1000 (by decide)).2
      (by decide) (by decide)

/-- Counterexample to claim C1 as stated: the spec's first test string uses
the phrasing `验证码为`, which the code's pattern (`代码为`) does not match,
so extraction yields `null` instead of `"123456"`. -/
theorem c1_spec_string_not_matched :
    extractVerificationCode "你的验证码为 123456" = none := by decide

/-- Claim C1 (corrected): with the Chinese phrasing the code actually
recognizes (`代码为`, as in its own comment "你的 ChatGPT 代码为 XXXXXX"),
all four evaluations behave as the phrasing test set expects; a 6-digit
number without a recognized lead-in phrase is not matched. -/
theorem c1_extract_examples :
    extractVerificationCode "你的 ChatGPT 代码为 123456" = some "123456" ∧
    extractVerificationCode "Your code is 654321" = some "654321" ∧
    extractVerificationCode "Tu código es 000000" = some "000000" ∧
    extractVerificationCode "order 123456 shipped" = none :=
  ⟨by decide, by decide, by decide, by decide⟩

/-- A successful attempt only returns a result whose own timestamp passed
the final recency re-validation. -/
theorem attemptFind_recent (tz : String) (now : Int) (l : List Message)
    (v : VerificationInfo) (h : attemptFind tz now l = some v) :
    isWithinMinutes now tz v.time 3 = true := by
  unfold attemptFind at h
  split at h
  · exact Option.noConfusion h
  · split at h
    · exact Option.noConfusion h
    · split at h
      · exact Option.noConfusion h
      · split at h
        · exact Option.noConfusion h
        · rename_i hrecent
          split at h
          · exact Option.noConfusion h
          · rename_i info
            split at h
            · exact Option.noConfusion h
            · rename_i hinfo
              rw [Option.some.injEq] at h
              subst h
              rw [Bool.not_eq_true', Bool.not_eq_false] at hinfo
              exact hinfo

/-- Equation: a fetch error aborts the attempt at once. -/
theorem pollGo_err (resp : Nat → FetchResponse) (now : Nat → Int) (tz : String)
    (i fuel : Nat) (e : String) (h : fetchEmailList (resp i) = .error e) :
    pollGo resp now tz i (fuel + 1) = ⟨.aborted e, 1, []⟩ := by
  unfold pollGo
  rw [h]

/-- Equation: a successful attempt terminates the loop at once. -/
theorem pollGo_hit (resp : Nat → FetchResponse) (now : Nat → Int) (tz : String)
    (i fuel : Nat) (d : EmailData) (info : VerificationInfo)
    (hf : fetchEmailList (resp i) = .ok d)
    (ha : attemptFind tz (now i) d.list = some info) :
    pollGo resp now tz i (fuel + 1) = ⟨.found info, 1, []⟩ := by
  unfold pollGo
  rw [hf]
  simp [ha]

/-- Equation: a failed attempt retries (after a sleep) or exhausts. -/
theorem pollGo_miss (resp : Nat → FetchResponse) (now : Nat → Int) (tz : String)
    (i fuel : Nat) (d : EmailData)
    (hf : fetchEmailList (resp i) = .ok d)
    (ha : attemptFind tz (now i) d.list = none) :
    pollGo resp now tz i (fuel + 1) =
      if fuel = 0 then ⟨.exhausted, 1, []⟩
      else
        ⟨(pollGo resp now tz (i + 1) fuel).outcome,
          (pollGo resp now tz (i + 1) fuel).fetchCount + 1,
          retryDelay :: (pollGo resp now tz (i + 1) fuel).sleeps⟩ := by
  conv_lhs => unfold pollGo
  rw [hf]
  simp [ha]

/-- `found` outcomes of the loop only arise from an attempt whose result
passed the recency re-validation at that attempt's clock. -/
theorem pollGo_found_recent (resp : Nat → FetchResponse) (now : Nat → Int) (tz : String) :
    ∀ (fuel i : Nat) (v : VerificationInfo),
      (pollGo resp now tz i fuel).outcome = .found v →
      ∃ k, i ≤ k ∧ k < i + fuel ∧ isWithinMinutes (now k) tz v.time 3 = true := by
  intro fuel
  induction fuel with
  | zero =>
    intro i v h
    exact absurd h (by simp [pollGo])
  | succ n ih =>
    intro i v h
    cases hf : fetchEmailList (resp i) with
    | error e =>
      rw [pollGo_err resp now tz i n e hf] at h
      exact absurd h (by simp)
    | ok d =>
      cases ha : attemptFind tz (now i) d.list with
      | some info =>
        rw [pollGo_hit resp now tz i n d info hf ha] at h
        simp only [PollOutcome.found.injEq] at h
        exact ⟨i, le_refl i, by omega, h ▸ attemptFind_recent tz (now i) d.list info ha⟩
      | none =>
        rw [pollGo_miss resp now tz i n d hf ha] at h
        by_cases hn : n = 0
        · subst hn
          rw [if_pos rfl] at h
          exact absurd h (by simp)
        · rw [if_neg hn] at h
          simp only at h
          obtain ⟨k, hk1, hk2, hk3⟩ := ih (i + 1) v h
          exact ⟨k, by omega, by omega, hk3⟩

/-- Claim C2: whenever a poll session reports success, the surfaced result's
own timestamp passed the 3-minute recency check at some attempt of the
session; a stale or unparsable timestamp is never surfaced as success. -/
theorem c2_found_implies_recent (resp : Nat → FetchResponse) (now : Nat → Int)
    (tz : String) (v : VerificationInfo)
    (h : (pollSession resp now tz).outcome = .found v) :
    ∃ k, k < maxRetries ∧ isWithinMinutes (now k) tz v.time 3 = true := by
  unfold pollSession at h
  obtain ⟨k, _, hk2, hk3⟩ := pollGo_found_recent resp now tz maxRetries 0 v h
  exact ⟨k, by omega, hk3⟩

/-- Witness for C2: a session that finds `"code is 482913"` on its first
attempt surfaces a result that is recent at that attempt. -/
theorem c2_found_implies_recent_witness :
    ∃ k, k < maxRetries ∧
      isWithinMinutes 1704103200000 "UTC" (.num 1704103200) 3 = true :=
  c2_found_implies_recent
    (fun _ => .payload 200 "" ⟨[⟨"code is 482913", .num 1704103200, "Tester", "t@example.com"⟩]⟩)
    (fun _ => 1704103200000) "UTC"
    ⟨"482913", .num 1704103200, "code is 482913", "Tester"⟩ (by decide)

/-- With always-empty fetch results every attempt falls through, sleeping
between consecutive attempts only. -/
theorem pollGo_all_empty (resp : Nat → FetchResponse) (now : Nat → Int) (tz : String)
    (h : ∀ i, fetchEmailList (resp i) = .ok ⟨[]⟩) :
    ∀ (fuel i : Nat),
      pollGo resp now tz i (fuel + 1) = ⟨.exhausted, fuel + 1, List.replicate fuel retryDelay⟩ := by
  intro fuel
  induction fuel with
  | zero =>
    intro i
    rw [pollGo_miss resp now tz i 0 ⟨[]⟩ (h i) rfl]
    rfl
  | succ n ih =>
    intro i
    rw [pollGo_miss resp now tz i (n + 1) ⟨[]⟩ (h i) rfl]
    rw [if_neg (Nat.succ_ne_zero n)]
    rw [ih (i + 1)]
    rfl

/-- The loop never performs more fetch attempts than it has fuel. -/
theorem pollGo_fetch_le (resp : Nat → FetchResponse) (now : Nat → Int) (tz : String) :
    ∀ (fuel i : Nat), (pollGo resp now tz i fuel).fetchCount ≤ fuel := by
  intro fuel
  induction fuel with
  | zero =>
    intro i
    exact le_refl 0
  | succ n ih =>
    intro i
    cases hf : fetchEmailList (resp i) with
    | error e =>
      rw [pollGo_err resp now tz i n e hf]
      exact Nat.one_le_iff_ne_zero.mpr (Nat.succ_ne_zero n)
    | ok d =>
      cases ha : attemptFind tz (now i) d.list with
      | some info =>
        rw [pollGo_hit resp now tz i n d info hf ha]
        exact Nat.one_le_iff_ne_zero.mpr (Nat.succ_ne_zero n)
      | none =>
        rw [pollGo_miss resp now tz i n d hf ha]
        by_cases hn : n = 0
        · subst hn
          rw [if_pos rfl]
        · rw [if_neg hn]
          have := ih (i + 1)
          simp only
          omega

/-- Claim C7: a fetch capability that always resolves with an empty list
makes the session perform exactly 5 attempts with the fixed 10000 ms sleep
between consecutive attempts (4 sleeps, none after the last), ending in
exhaustion (a normal return, not an abort); and every session performs at
most `maxRetries` fetch cycles. -/
theorem c7_exhaustion_after_five (resp : Nat → FetchResponse) (now : Nat → Int)
    (tz : String) (hempty : ∀ i, fetchEmailList (resp i) = .ok ⟨[]⟩) :
    pollSession resp now tz = ⟨.exhausted, 5, List.replicate 4 10000⟩ ∧
    ∀ (r : Nat → FetchResponse) (n : Nat → Int) (t : String),
      (pollSession r n t).fetchCount ≤ maxRetries := by
  constructor
  · exact pollGo_all_empty resp now tz hempty 4 0
  · intro r n t
    exact pollGo_fetch_le r n t maxRetries 0

/-- Witness for C7 with a concrete always-empty fetch stub. -/
theorem c7_exhaustion_after_five_witness :
    pollSession (fun _ => .payload 200 "" ⟨[]⟩) (fun _ => 0) "UTC" =
      ⟨.exhausted, 5, List.replicate 4 10000⟩ ∧
    ∀ (r : Nat → FetchResponse) (n : Nat → Int) (t : String),
      (pollSession r n t).fetchCount ≤ maxRetries :=
  c7_exhaustion_after_five (fun _ => .payload 200 "" ⟨[]⟩) (fun _ => 0) "UTC"
    (fun _ => rfl)

/-- A fetch error at attempt `i + j`, with all earlier attempts falling
through, aborts the loop right there: `j + 1` fetches, `j` sleeps. -/
theorem pollGo_abort (resp : Nat → FetchResponse) (now : Nat → Int) (tz : String)
    (e : String) :
    ∀ (j fuel i : Nat), j < fuel →
      fetchEmailList (resp (i + j)) = .error e →
      (∀ k, k < j → ∃ d, fetchEmailList (resp (i + k)) = .ok d ∧
        attemptFind tz (now (i + k)) d.list = none) →
      pollGo resp now tz i fuel = ⟨.aborted e, j + 1, List.replicate j retryDelay⟩ := by
  intro j
  induction j with
  | zero =>
    intro fuel i hj herr hprev
    obtain ⟨f, rfl⟩ : ∃ f, fuel = f + 1 := ⟨fuel - 1, by omega⟩
    rw [Nat.add_zero] at herr
    rw [pollGo_err resp now tz i f e herr]
    rfl
  | succ n ih =>
    intro fuel i hj herr hprev
    obtain ⟨f, rfl⟩ : ∃ f, fuel = f + 1 := ⟨fuel - 1, by omega⟩
    obtain ⟨d, hd1, hd2⟩ := hprev 0 (Nat.succ_pos n)
    rw [Nat.add_zero] at hd1 hd2
    rw [pollGo_miss resp now tz i f d hd1 hd2]
    have hf : f ≠ 0 := by omega
    rw [if_neg hf]
    have herr' : fetchEmailList (resp (i + 1 + n)) = .error e := by
      rw [show i + 1 + n = i + (n + 1) from by omega]
      exact herr
    have hprev' : ∀ k, k < n → ∃ d, fetchEmailList (resp (i + 1 + k)) = .ok d ∧
        attemptFind tz (now (i + 1 + k)) d.list = none := by
      intro k hk
      have := hprev (k + 1) (by omega)
      rwa [show i + (k + 1) = i + 1 + k from by omega] at this
    rw [ih f (i + 1) (by omega) herr' hprev']
    simp [List.replicate_succ]

/-- Claim C8: a fetch that throws (non-2xx status, unparsable body, or
provider error — the three `Except.error` shapes of `fetchEmailList`) at
attempt `j` of a session whose earlier attempts all fell through is not
caught by the loop: the session aborts with that error after exactly
`j + 1` fetches and `j` sleeps, with no retry after the throwing attempt. -/
theorem c8_fetch_error_propagates (resp : Nat → FetchResponse) (now : Nat → Int)
    (tz : String) (e : String) (j : Nat) (hj : j < maxRetries)
    (herr : fetchEmailList (resp j) = .error e)
    (hprev : ∀ k, k < j → ∃ d, fetchEmailList (resp k) = .ok d ∧
      attemptFind tz (now k) d.list = none) :
    pollSession resp now tz = ⟨.aborted e, j + 1, List.replicate j 10000⟩ := by
  unfold pollSession
  have h := pollGo_abort resp now tz e j maxRetries 0 hj
    (by rw [Nat.zero_add]; exact herr)
    (fun k hk => by rw [Nat.zero_add]; exact hprev k hk)
  exact h

/-- Witness for C8: the first attempt sees an empty list, the second throws
on HTTP 500; the session aborts after 2 fetches and 1 sleep. -/
theorem c8_fetch_error_propagates_witness :
    pollSession (fun i => if i = 0 then .payload 200 "" ⟨[]⟩ else .httpFail 500)
      (fun _ => 0) "UTC" =
    ⟨.aborted "获取邮件列表失败，HTTP 状态码 500", 2, List.replicate 1 10000⟩ := by
  refine c8_fetch_error_propagates
    (fun i => if i = 0 then .payload 200 "" ⟨[]⟩ else .httpFail 500) (fun _ => 0) "UTC"
    "获取邮件列表失败，HTTP 状态码 500" 1 (by decide) rfl ?_
  intro k hk
  have hk0 : k = 0 := by omega
  subst hk0
  exact ⟨⟨[]⟩, rfl, rfl⟩

/-- `\d` and `\s` are disjoint character classes. -/
theorem digit_not_space (c : Char) (h : isDigitChar c = true) :
    isSpaceChar c = false := by
  unfold isDigitChar at h
  unfold isSpaceChar
  rw [decide_eq_true_eq] at h
  rw [decide_eq_false_iff_not]
  omega

/-- After a matched phrasing, greedy whitespace skipping followed by the
six-digit capture takes the first six digits of a digit run of length at
least seven. -/
theorem afterPhrase_spec (ws ds rest : List Char)
    (hws : ∀ c ∈ ws, isSpaceChar c = true)
    (hds : ∀ c ∈ ds, isDigitChar c = true)
    (hlen : 7 ≤ ds.length) :
    afterPhrase (ws ++ (ds ++ rest)) = some (ds.take 6) := by
  obtain ⟨d, ds', rfl⟩ : ∃ d ds', ds = d :: ds' := by
    cases ds with
    | nil => simp at hlen
    | cons d ds' => exact ⟨d, ds', rfl⟩
  have hd : isDigitChar d = true := hds d (List.mem_cons_self d ds')
  have hlen' : 6 ≤ ds'.length + 1 := by
    simp only [List.length_cons] at hlen
    omega
  have h1 : (ws ++ (d :: ds' ++ rest)).dropWhile isSpaceChar = d :: (ds' ++ rest) := by
    rw [List.dropWhile_append_of_pos hws, List.cons_append]
    exact List.dropWhile_cons_of_neg (by simp [digit_not_space d hd])
  simp only [afterPhrase]
  rw [h1]
  have htake : (d :: (ds' ++ rest)).take 6 = (d :: ds').take 6 := by
    rw [← List.cons_append]
    exact List.take_append_of_le_length (by simpa using hlen')
  rw [htake]
  have hlen6 : ((d :: ds').take 6).length = 6 := by
    rw [List.length_take]
    simp only [List.length_cons]
    omega
  have hall : ((d :: ds').take 6).all isDigitChar = true := by
    rw [List.all_eq_true]
    intro x hx
    exact hds x (List.mem_of_mem_take hx)
  rw [if_pos ⟨hlen6, hall⟩]

/-- The scan reports a match found at the current position. -/
theorem scanFor_of_tryAt (c : Char) (cs r : List Char)
    (h : tryAt (c :: cs) = some r) : scanFor (c :: cs) = some r := by
  unfold scanFor
  rw [h]

/-- A match further right survives prepending characters: the scan still
finds some match. -/
theorem scanFor_append_isSome (t : List Char) (h : (scanFor t).isSome = true) :
    ∀ p : List Char, (scanFor (p ++ t)).isSome = true := by
  intro p
  induction p with
  | nil => simpa using h
  | cons c cs ih =>
    rw [List.cons_append]
    cases htry : tryAt (c :: (cs ++ t)) with
    | some r =>
      unfold scanFor
      rw [htry]
      rfl
    | none =>
      unfold scanFor
      rw [htry]
      exact ih

/-- Claim C10: a recognized phrasing followed by optional whitespace and a
run of at least seven digits is always matched — the `\d{6}` capture simply
truncates the run to its first six digits rather than rejecting it.  The
first conjunct (arbitrary prefix) gives non-`none`; the second gives the
captured value when the occurrence is leftmost. -/
theorem c10_overlong_truncated (p phr ws ds rest : List Char)
    (hphr : phr ∈ phrasePats)
    (hws : ∀ c ∈ ws, isSpaceChar c = true)
    (hds : ∀ c ∈ ds, isDigitChar c = true)
    (hlen : 7 ≤ ds.length) :
    (extractVerificationCode (String.mk (p ++ (phr ++ (ws ++ (ds ++ rest)))))).isSome = true ∧
    extractVerificationCode (String.mk (phr ++ (ws ++ (ds ++ rest)))) =
      some (String.mk (ds.take 6)) := by
  have haft : afterPhrase (ws ++ (ds ++ rest)) = some (ds.take 6) :=
    afterPhrase_spec ws ds rest hws hds hlen
  have hscan : scanFor (phr ++ (ws ++ (ds ++ rest))) = some (ds.take 6) := by
    simp only [phrasePats, List.mem_cons, List.not_mem_nil, or_false] at hphr
    rcases hphr with rfl | rfl | rfl
    · rw [show zhPat ++ (ws ++ (ds ++ rest)) =
        '代' :: ("码为".data ++ (ws ++ (ds ++ rest))) from rfl]
      apply scanFor_of_tryAt
      show tryAt (zhPat ++ (ws ++ (ds ++ rest))) = some (ds.take 6)
      unfold tryAt
      rw [show tryAlt zhPat (zhPat ++ (ws ++ (ds ++ rest))) =
        afterPhrase (ws ++ (ds ++ rest)) from rfl]
      rw [haft]
    · rw [show enPat ++ (ws ++ (ds ++ rest)) =
        'c' :: ("ode is".data ++ (ws ++ (ds ++ rest))) from rfl]
      apply scanFor_of_tryAt
      show tryAt (enPat ++ (ws ++ (ds ++ rest))) = some (ds.take 6)
      unfold tryAt
      rw [show tryAlt zhPat (enPat ++ (ws ++ (ds ++ rest))) = none from rfl]
      rw [show tryAlt enPat (enPat ++ (ws ++ (ds ++ rest))) =
        afterPhrase (ws ++ (ds ++ rest)) from rfl]
      rw [haft]
    · rw [show esPat ++ (ws ++ (ds ++ rest)) =
        'c' :: ("ódigo es".data ++ (ws ++ (ds ++ rest))) from rfl]
      apply scanFor_of_tryAt
      show tryAt (esPat ++ (ws ++ (ds ++ rest))) = some (ds.take 6)
      unfold tryAt
      rw [show tryAlt zhPat (esPat ++ (ws ++ (ds ++ rest))) = none from rfl]
      rw [show tryAlt enPat (esPat ++ (ws ++ (ds ++ rest))) = none from rfl]
      rw [show tryAlt esPat (esPat ++ (ws ++ (ds ++ rest))) =
        afterPhrase (ws ++ (ds ++ rest)) from rfl]
      rw [haft]
  constructor
  · have h2 := scanFor_append_isSome (phr ++ (ws ++ (ds ++ rest)))
      (by rw [hscan]; rfl) p
    unfold extractVerificationCode
    rw [show (String.mk (p ++ (phr ++ (ws ++ (ds ++ rest))))).data =
      p ++ (phr ++ (ws ++ (ds ++ rest))) from rfl]
    obtain ⟨r, hr⟩ := Option.isSome_iff_exists.mp h2
    rw [hr]
    rfl
  · unfold extractVerificationCode
    rw [show (String.mk (phr ++ (ws ++ (ds ++ rest)))).data =
      phr ++ (ws ++ (ds ++ rest)) from rfl]
    rw [hscan]
    rfl

/-- Witness for C10: `"Hi code is 1234567"` both with and without its
prefix; the captured code is the truncation `"123456"`. -/
theorem c10_overlong_truncated_witness :
    (extractVerificationCode
      (String.mk ("Hi ".data ++ (enPat ++ ([' '] ++ ("1234567".data ++ [])))))).isSome = true ∧
    extractVerificationCode (String.mk (enPat ++ ([' '] ++ ("1234567".data ++ [])))) =
      some (String.mk ("1234567".data.take 6)) :=
  c10_overlong_truncated "Hi ".data enPat [' '] "1234567".data []
    (by decide) (by decide) (by decide) (by decide)
